/-
Verification of the nossocrm decision-queue service, boards optimistic-update
hooks and realtime sync flush, as a shallow embedding in Lean 4.

Conventions of the embedding:
* ISO-8601 date strings compared via Date.parse / new Date(...) are modelled as
  integer timestamps (milliseconds); the comparisons in the source are order
  comparisons on the parsed values, which the integer order models exactly.
* localStorage-persisted JSON state is modelled as explicit state records
  threaded through the operations.
* A JavaScript Set built from a parsed array (new Set(arr)) keeps first
  occurrences in insertion order and Array.from returns that order; this is
  dedupFirst below.  Set membership coincides with list membership.
* JavaScript object spread merge is spreadMerge below; Partial<...> records are
  association lists (for payloads) or records of Options (for Board updates).
-/
import Mathlib

namespace NossoCRM

/-! ## Decision queue data model (src/features/settings/hooks/useSettingsController.ts) -/

inductive DecisionPriority
  | critical
  | high
  | medium
  | low
deriving DecidableEq, Repr

inductive DecisionStatus
  | pending
  | approved
  | rejected
  | snoozed
deriving DecidableEq, Repr

/-- Action payloads are JSON objects; modelled as association lists of fields. -/
def ActionPayload := List (String × String)
deriving DecidableEq

structure SuggestedAction where
  type : String
  payload : ActionPayload
deriving DecidableEq

structure Decision where
  id : String
  type : String
  category : String
  priority : DecisionPriority
  status : DecisionStatus
  dealId : Option String
  contactId : Option String
  activityId : Option String
  createdAt : Int
  expiresAt : Option Int
  snoozeUntil : Option Int
  decidedAt : Option Int
  suggestedAction : SuggestedAction
deriving DecidableEq

/-- State `DecisionQueueState` as persisted under `crm_decision_queue`
(analyzer results are opaque for the claims considered here). -/
structure DecisionQueueState where
  decisions : List Decision
  analyzerResults : List String := []
  lastAnalyzedAt : Option Int := none
deriving DecidableEq

/-- The two localStorage keys the service reads and writes:
`crm_decision_queue` (queue) and `crm_processed_decisions` (processedKeys). -/
structure Storage where
  queue : DecisionQueueState
  processedKeys : List String
deriving DecidableEq

def emptyStorage : Storage :=
  { queue := { decisions := [] }, processedKeys := [] }

/-! ## JS helpers used by the service -/

/-- JavaScript `a || b` restricted to optional strings: `undefined` and the
empty string are falsy and fall through to `b`. -/
def jsOr (a b : Option String) : Option String :=
  match a with
  | some s => if s = "" then b else some s
  | none => b

/-- Rendering a value inside a template literal: `undefined` prints as the
string "undefined". -/
def optRender : Option String → String
  | some s => s
  | none => "undefined"

/-- JS `new Set(arr)` keeps the first occurrence of each element, in order. -/
def dedupFirst : List String → List String
  | [] => []
  | x :: xs => x :: (dedupFirst xs).filter (fun y => y ≠ x)

/-- JS object spread `{ ...base, ...override }` on association lists: keys of
`base` keep their position but take the value from `override` when present;
keys only in `override` are appended in order. -/
def lookupKey (k : String) : List (String × String) → Option String
  | [] => none
  | (k', v) :: rest => if k' = k then some v else lookupKey k rest

def spreadMerge (base override : List (String × String)) : List (String × String) :=
  base.map (fun kv =>
    match lookupKey kv.1 override with
    | some v => (kv.1, v)
    | none => kv) ++
  override.filter (fun kv => lookupKey kv.1 base = none)

/-! ## Processed-decision tracking -/

/-- The dedupe key `${decision.type}:${decision.dealId || decision.contactId ||
decision.activityId}`. -/
def dedupeKey (d : Decision) : String :=
  d.type ++ ":" ++ optRender (jsOr d.dealId (jsOr d.contactId d.activityId))

/-- JS `processed.add(key)` on the set loaded from storage: no-op when present,
appended at the end when absent. -/
def processedInsert (stored : List String) (key : String) : List String :=
  let p := dedupFirst stored
  if key ∈ p then p else p ++ [key]

/-- Function `addProcessedDecision`: add the key, then `Array.from(processed).slice(-500)`
keeps only the last 500 entries. -/
def addProcessedDecision (stored : List String) (key : String) : List String :=
  let arr := processedInsert stored key
  arr.drop (arr.length - 500)

/-! ## Queue read operations -/

/-- Modelled from the spec: `PRIORITY_ORDER` lives in the (absent) types module;
the spec orders priorities critical > high > medium > low and the service sorts
ascending by `PRIORITY_ORDER`, so critical maps to the smallest rank. -/
def PRIORITY_ORDER : DecisionPriority → Int
  | .critical => 0
  | .high => 1
  | .medium => 2
  | .low => 3

/-- The filter of `getPendingDecisions`: pending, not expired, not snoozed. -/
def isActivePending (now : Int) (d : Decision) : Bool :=
  decide (d.status = DecisionStatus.pending) &&
  (match d.expiresAt with
   | some e => !decide (e < now)
   | none => true) &&
  (match d.snoozeUntil with
   | some s => !decide (s > now)
   | none => true)

/-- The comparator of `getPendingDecisions` as a total preorder:
`a` may come before `b` iff the comparator result is ≤ 0. -/
def decisionLE (a b : Decision) : Prop :=
  PRIORITY_ORDER a.priority < PRIORITY_ORDER b.priority ∨
    (PRIORITY_ORDER a.priority = PRIORITY_ORDER b.priority ∧ b.createdAt ≤ a.createdAt)

instance : DecidableRel decisionLE := fun a b => by
  unfold decisionLE; infer_instance

instance : IsTotal Decision decisionLE := by
  constructor
  intro a b
  unfold decisionLE
  omega

instance : IsTrans Decision decisionLE := by
  constructor
  intro a b c hab hbc
  unfold decisionLE at *
  omega

/-- Function `getPendingDecisions` (the sort is JS `Array.prototype.sort`, which is a
stable sort by the comparator; insertion sort realises that contract). -/
def getPendingDecisions (s : DecisionQueueState) (now : Int) : List Decision :=
  List.insertionSort decisionLE (s.decisions.filter (isActivePending now))

/-! ## Queue write operations -/

/-- The "similar pending decision" predicate of `addDecision`/`addDecisions`:
an existing decision blocks `d` iff it is pending with the same type, dealId
and contactId. -/
def similarPending (d e : Decision) : Bool :=
  decide (e.status = DecisionStatus.pending) &&
  decide (e.type = d.type) &&
  decide (e.dealId = d.dealId) &&
  decide (e.contactId = d.contactId)

/-- Function `addDecision`: skip when the dedupe key was processed or a similar pending
decision exists; otherwise push at the end. -/
def addDecision (s : Storage) (d : Decision) : Storage :=
  if dedupeKey d ∈ s.processedKeys then s
  else if s.queue.decisions.any (similarPending d) then s
  else { s with queue := { s.queue with decisions := s.queue.decisions ++ [d] } }

/-- The loop of `addDecisions`: the processed set is loaded once before the
loop; pushed decisions take part in later similarity checks. -/
def addDecisionsLoop (processed : List String) :
    List Decision → Nat → List Decision → List Decision × Nat
  | acc, added, [] => (acc, added)
  | acc, added, d :: rest =>
    if dedupeKey d ∈ processed then addDecisionsLoop processed acc added rest
    else if acc.any (similarPending d) then addDecisionsLoop processed acc added rest
    else addDecisionsLoop processed (acc ++ [d]) (added + 1) rest

/-- Function `addDecisions`, returning the updated storage and the `added` count. -/
def addDecisions (s : Storage) (ds : List Decision) : Storage × Nat :=
  let r := addDecisionsLoop s.processedKeys s.queue.decisions 0 ds
  ({ s with queue := { s.queue with decisions := r.1 } }, r.2)

/-- In-place mutation of the first decision found by id
(`state.decisions.find(d => d.id === id)` followed by field assignment). -/
def replaceFirst (id : String) (f : Decision → Decision) : List Decision → List Decision
  | [] => []
  | d :: rest => if d.id = id then f d :: rest else d :: replaceFirst id f rest

/-- Function `updateDecisionStatus`: set status and decidedAt on the first decision with
the given id; record the dedupe key when the new status is approved/rejected. -/
def updateDecisionStatus (s : Storage) (now : Int) (id : String)
    (status : DecisionStatus) : Storage :=
  match s.queue.decisions.find? (fun d => d.id == id) with
  | none => s
  | some d =>
    let ds := replaceFirst id
      (fun e => { e with status := status, decidedAt := some now }) s.queue.decisions
    let pk :=
      if status = DecisionStatus.approved ∨ status = DecisionStatus.rejected then
        addProcessedDecision s.processedKeys (dedupeKey d)
      else s.processedKeys
    { queue := { s.queue with decisions := ds }, processedKeys := pk }

/-- Result record of `executeAction` / `approveDecision`; `result` carries the
(actionType, payload) pair the stub echoes back. -/
structure ExecOutcome where
  success : Bool
  error : Option String
  result : Option (String × ActionPayload)
deriving DecidableEq

/-- Function `executeAction` is currently a stub: always succeeds, echoing the action. -/
def executeAction (actionType : String) (payload : ActionPayload) : ExecOutcome :=
  { success := true, error := none, result := some (actionType, payload) }

/-- Function `approveDecision`: look the decision up, fail when absent or not pending,
merge the payload override, execute, and on success mark approved. -/
def approveDecision (s : Storage) (now : Int) (id : String)
    (modifiedPayload : Option (List (String × String))) : Storage × ExecOutcome :=
  match s.queue.decisions.find? (fun d => d.id == id) with
  | none => (s, { success := false, error := some "Decisão não encontrada", result := none })
  | some d =>
    if d.status ≠ DecisionStatus.pending then
      (s, { success := false, error := some "Decisão já foi processada", result := none })
    else
      let finalPayload :=
        match modifiedPayload with
        | some m => spreadMerge d.suggestedAction.payload m
        | none => d.suggestedAction.payload
      let r := executeAction d.suggestedAction.type finalPayload
      (if r.success then updateDecisionStatus s now id DecisionStatus.approved else s, r)

/-! ## Maintenance sweeps -/

def msPerDay : Int := 86400000

/-- Function `clearExpired`: drop pending decisions whose expiresAt is strictly in the
past; return (new storage queue, removed count). -/
def clearExpired (s : DecisionQueueState) (now : Int) : DecisionQueueState × Nat :=
  let kept := s.decisions.filter (fun d =>
    if d.status ≠ DecisionStatus.pending then true
    else match d.expiresAt with
      | some e => !decide (e < now)
      | none => true)
  ({ s with decisions := kept }, s.decisions.length - kept.length)

/-- Function `clearCompleted`: drop non-pending decisions decided before
`now - olderThanDays` days; return (new queue, removed count). -/
def clearCompleted (s : DecisionQueueState) (now : Int) (olderThanDays : Int := 7) :
    DecisionQueueState × Nat :=
  let cutoff := now - olderThanDays * msPerDay
  let kept := s.decisions.filter (fun d =>
    if d.status = DecisionStatus.pending then true
    else match d.decidedAt with
      | some t => !decide (t < cutoff)
      | none => true)
  ({ s with decisions := kept }, s.decisions.length - kept.length)

/-! ## Boards query cache and mutation hooks (src/unnamed/part_000,
lib/query/hooks/useBoardsQuery.ts) -/

structure Board where
  id : String
  name : String
  stages : List String
  isDefault : Bool
  createdAt : Int
deriving DecidableEq

/-- The `board` argument of `useCreateBoard` (a Board without id and createdAt,
with stages/isDefault possibly absent, defaulted in `onMutate`). -/
structure BoardInput where
  name : String
  stages : Option (List String)
  isDefault : Option Bool
deriving DecidableEq

/-- Type `Partial<Board>` as passed to `useUpdateBoard`. -/
structure BoardUpdates where
  id : Option String := none
  name : Option String := none
  stages : Option (List String) := none
  isDefault : Option Bool := none
  createdAt : Option Int := none
deriving DecidableEq

/-- JS spread `{ ...board, ...updates }`. -/
def applyUpdates (b : Board) (u : BoardUpdates) : Board :=
  { id := u.id.getD b.id
    name := u.name.getD b.name
    stages := u.stages.getD b.stages
    isDefault := u.isDefault.getD b.isDefault
    createdAt := u.createdAt.getD b.createdAt }

/-- The slice of the TanStack Query cache the boards hooks touch:
the `boards.lists()` data (possibly never fetched, hence `Option`) and the
invalidation marks `invalidateQueries` sets on the boards / deals families. -/
structure BoardsCache where
  boardsList : Option (List Board)
  boardsInvalidated : Bool
  dealsInvalidated : Bool
deriving DecidableEq

/-- The context returned by `useCreateBoard.onMutate`. -/
structure CreateCtx where
  previousBoards : Option (List Board)
  tempId : String
deriving DecidableEq

/-- The temp board built in `onMutate`. -/
def mkTempBoard (input : BoardInput) (tempId : String) (now : Int) : Board :=
  { id := tempId
    name := input.name
    stages := input.stages.getD []
    isDefault := input.isDefault.getD false
    createdAt := now }

/-- Handler `useCreateBoard.onMutate`: snapshot the list, prepend a temp board
(`(old = []) => [tempBoard, ...old]`), return the context. -/
def useCreateBoard_onMutate (cache : BoardsCache) (input : BoardInput)
    (tempId : String) (now : Int) : BoardsCache × CreateCtx :=
  let previousBoards := cache.boardsList
  let tempBoard := mkTempBoard input tempId now
  ({ cache with boardsList := some (tempBoard :: cache.boardsList.getD []) },
   { previousBoards := previousBoards, tempId := tempId })

/-- Handler `useCreateBoard.onError`: restore the snapshot when one was captured
(`if (context?.previousBoards)`; an array, even empty, is truthy). -/
def useCreateBoard_onError (cache : BoardsCache) (ctx : CreateCtx) : BoardsCache :=
  match ctx.previousBoards with
  | some prev => { cache with boardsList := some prev }
  | none => cache

/-- Handler `useCreateBoard.onSuccess`: drop the temp record, then insert the server
record unless a record with the server id is already present. -/
def useCreateBoard_onSuccess (cache : BoardsCache) (ctx : CreateCtx)
    (data : Board) : BoardsCache :=
  let old := cache.boardsList.getD []
  let withoutTemp := old.filter (fun b => b.id ≠ ctx.tempId)
  let already := withoutTemp.any (fun b => b.id == data.id)
  { cache with boardsList := some (if already then withoutTemp else data :: withoutTemp) }

/-- Handler `useCreateBoard.onSettled` invalidates the boards.all query family. -/
def useCreateBoard_onSettled (cache : BoardsCache) : BoardsCache :=
  { cache with boardsInvalidated := true }

/-- Handler `useUpdateBoard.onMutate`: snapshot, then map the update over the list. -/
def useUpdateBoard_onMutate (cache : BoardsCache) (id : String)
    (updates : BoardUpdates) : BoardsCache × Option (List Board) :=
  ({ cache with boardsList := some ((cache.boardsList.getD []).map
      (fun b => if b.id = id then applyUpdates b updates else b)) },
   cache.boardsList)

def useUpdateBoard_onError (cache : BoardsCache) (prev : Option (List Board)) : BoardsCache :=
  match prev with
  | some p => { cache with boardsList := some p }
  | none => cache

def useUpdateBoard_onSettled (cache : BoardsCache) : BoardsCache :=
  { cache with boardsInvalidated := true }

/-- Handler `useDeleteBoard.onMutate`: snapshot, then filter the board out. -/
def useDeleteBoard_onMutate (cache : BoardsCache) (id : String) :
    BoardsCache × Option (List Board) :=
  ({ cache with boardsList := some ((cache.boardsList.getD []).filter
      (fun b => b.id ≠ id)) },
   cache.boardsList)

def useDeleteBoard_onError (cache : BoardsCache) (prev : Option (List Board)) : BoardsCache :=
  match prev with
  | some p => { cache with boardsList := some p }
  | none => cache

/-- Handler `useDeleteBoard.onSettled`: invalidate boards.all and deals.all. -/
def useDeleteBoard_onSettled (cache : BoardsCache) : BoardsCache :=
  { cache with boardsInvalidated := true, dealsInvalidated := true }

/-- A full run of the create mutation: onMutate, then onSuccess or onError
according to how the remote write settled, then onSettled. -/
def runCreateBoard (cache : BoardsCache) (input : BoardInput) (tempId : String)
    (now : Int) (remote : Except String Board) : BoardsCache :=
  let m := useCreateBoard_onMutate cache input tempId now
  let afterResult :=
    match remote with
    | .ok data => useCreateBoard_onSuccess m.1 m.2 data
    | .error _ => useCreateBoard_onError m.1 m.2
  useCreateBoard_onSettled afterResult

/-- A full run of the update mutation (no onSuccess cache edit exists). -/
def runUpdateBoard (cache : BoardsCache) (id : String) (updates : BoardUpdates)
    (remote : Except String Unit) : BoardsCache :=
  let m := useUpdateBoard_onMutate cache id updates
  let afterResult :=
    match remote with
    | .ok _ => m.1
    | .error _ => useUpdateBoard_onError m.1 m.2
  useUpdateBoard_onSettled afterResult

/-- A full run of the delete mutation. -/
def runDeleteBoard (cache : BoardsCache) (id : String)
    (remote : Except String Unit) : BoardsCache :=
  let m := useDeleteBoard_onMutate cache id
  let afterResult :=
    match remote with
    | .ok _ => m.1
    | .error _ => useDeleteBoard_onError m.1 m.2
  useDeleteBoard_onSettled afterResult

/-- Number of boards in a list carrying a given id. -/
def countId (l : List Board) (i : String) : Nat :=
  (l.filter (fun b => b.id = i)).length

/-! ## Realtime sync flush (src/lib/realtime/useRealtimeSync.ts) -/

inductive RealtimeTable
  | deals
  | contacts
  | activities
  | boards
  | board_stages
  | crm_companies
deriving DecidableEq

inductive QueryKey
  | dealsAll
  | dashboardStats
  | contactsAll
  | activitiesAll
  | boardsAll
  | companiesAll
deriving DecidableEq

/-- The table → query-keys mapping (`getTableQueryKeys`). -/
def getTableQueryKeys : RealtimeTable → List QueryKey
  | .deals => [.dealsAll, .dashboardStats]
  | .contacts => [.contactsAll]
  | .activities => [.activitiesAll]
  | .boards => [.boardsAll]
  | .board_stages => [.boardsAll]
  | .crm_companies => [.companiesAll]

inductive RTEventType
  | INSERT
  | UPDATE
  | DELETE
deriving DecidableEq

structure RTEvent where
  table : RealtimeTable
  eventType : RTEventType
deriving DecidableEq

/-- The pending-invalidation refs accumulated between flushes: two JS Sets of
query keys plus the board_stages INSERT counter. -/
structure RTPending where
  pendingInvalidations : List QueryKey
  pendingInvalidateOnly : List QueryKey
  boardStagesInsertCount : Nat
deriving DecidableEq

def rtInit : RTPending := { pendingInvalidations := [], pendingInvalidateOnly := [], boardStagesInsertCount := 0 }

/-- JS `Set.add` on query keys (same key object each time, so membership dedupes). -/
def insertKey (l : List QueryKey) (k : QueryKey) : List QueryKey :=
  if k ∈ l then l else l ++ [k]

def addKeys (l : List QueryKey) (ks : List QueryKey) : List QueryKey :=
  ks.foldl insertKey l

/-- Queueing part of the realtime change handler: board_stages INSERTs go to
the invalidate-only set and bump the counter; every other event queues its
keys for full invalidation. -/
def processEvent (st : RTPending) (e : RTEvent) : RTPending :=
  let keys := getTableQueryKeys e.table
  if e.eventType = RTEventType.INSERT ∧ e.table = RealtimeTable.board_stages then
    { st with
      pendingInvalidateOnly := addKeys st.pendingInvalidateOnly keys
      boardStagesInsertCount := st.boardStagesInsertCount + 1 }
  else
    { st with pendingInvalidations := addKeys st.pendingInvalidations keys }

inductive RefetchType
  | all
  | none_
deriving DecidableEq

/-- The `invalidateQueries` calls issued by the microtask flush, in order:
fully-refetching invalidations first, then the invalidate-only set whose
refetchType depends on the board_stages insert count. -/
def flushInserts (st : RTPending) : List (QueryKey × RefetchType) :=
  st.pendingInvalidations.map (fun k => (k, RefetchType.all)) ++
  st.pendingInvalidateOnly.map (fun k =>
    (k, if st.boardStagesInsertCount ≤ 1 then RefetchType.all else RefetchType.none_))

/-! ## Helper lemmas -/

theorem length_sub_length_filter (l : List NossoCRM.Decision) (p : NossoCRM.Decision → Bool) :
    l.length - (l.filter p).length = (l.filter (fun a => !p a)).length := by
  have : (l.filter p).length + (l.filter (fun a => !p a)).length = l.length := by
    induction l with
    | nil => rfl
    | cons x xs ih => by_cases h : p x <;> simp [List.filter, h] <;> omega
  omega

theorem dedupFirst_length_le (l : List String) : (dedupFirst l).length ≤ l.length := by
  induction l with
  | nil => simp [dedupFirst]
  | cons x xs ih =>
    simp only [dedupFirst, List.length_cons]
    have := List.length_filter_le (fun y => decide (y ≠ x)) (dedupFirst xs)
    omega

theorem mem_addProcessedDecision (stored : List String) (key : String)
    (h : stored.length ≤ 500) : key ∈ addProcessedDecision stored key := by
  have hp : (dedupFirst stored).length ≤ 500 :=
    le_trans (dedupFirst_length_le stored) h
  unfold addProcessedDecision processedInsert
  by_cases hk : key ∈ dedupFirst stored
  · simp only [hk, if_pos]
    have : (dedupFirst stored).length - 500 = 0 := by omega
    simpa [this]
  · simp only [hk, if_neg, not_false_iff]
    have hle : ((dedupFirst stored) ++ [key]).length - 500 ≤ (dedupFirst stored).length := by
      simp only [List.length_append, List.length_singleton]
      omega
    rw [List.drop_append_of_le_length hle]
    exact List.mem_append_right _ (List.mem_singleton.mpr rfl)

/-! ## Claims about the boards mutation hooks -/

/-- C1: an optimistic insert by `useCreateBoard.onMutate` followed by a failed
remote write is rolled back by `onError` to exactly the snapshot that the
cache held before the insert. -/
theorem createBoard_rollback_restores_snapshot (cache : BoardsCache)
    (input : BoardInput) (tempId : String) (now : Int) (prev : List Board)
    (h : cache.boardsList = some prev) :
    (useCreateBoard_onError (useCreateBoard_onMutate cache input tempId now).1
        (useCreateBoard_onMutate cache input tempId now).2).boardsList = some prev := by
  simp [useCreateBoard_onMutate, useCreateBoard_onError, h]

theorem createBoard_rollback_restores_snapshot_witness :
    (useCreateBoard_onError
        (useCreateBoard_onMutate ⟨some [⟨"b1", "A", [], false, 0⟩], false, false⟩
          ⟨"New", none, none⟩ "temp-1" 5).1
        (useCreateBoard_onMutate ⟨some [⟨"b1", "A", [], false, 0⟩], false, false⟩
          ⟨"New", none, none⟩ "temp-1" 5).2).boardsList = some [⟨"b1", "A", [], false, 0⟩] :=
  createBoard_rollback_restores_snapshot ⟨some [⟨"b1", "A", [], false, 0⟩], false, false⟩
    ⟨"New", none, none⟩ "temp-1" 5 [⟨"b1", "A", [], false, 0⟩] rfl

/-- C8: every full run of a create, update or delete board mutation ends with
the boards collection queries invalidated, whether the remote write succeeded
or failed (delete additionally invalidates deals). -/
theorem board_mutations_always_invalidate (cache : BoardsCache) (input : BoardInput)
    (tempId : String) (now : Int) (remoteC : Except String Board)
    (id : String) (updates : BoardUpdates) (remoteU remoteD : Except String Unit)
    (did : String) :
    (runCreateBoard cache input tempId now remoteC).boardsInvalidated = true ∧
    (runUpdateBoard cache id updates remoteU).boardsInvalidated = true ∧
    (runDeleteBoard cache did remoteD).boardsInvalidated = true ∧
    (runDeleteBoard cache did remoteD).dealsInvalidated = true := by
  refine ⟨?_, ?_, ?_, ?_⟩ <;>
    [cases remoteC; cases remoteU; cases remoteD; cases remoteD] <;>
    simp [runCreateBoard, runUpdateBoard, runDeleteBoard,
      useCreateBoard_onSettled, useUpdateBoard_onSettled, useDeleteBoard_onSettled]

/-! ## Claims about the decision queue maintenance sweeps -/

/-- A pending decision that is expired at `now` (the removal condition of
`clearExpired`). -/
def expiredPending (now : Int) (d : Decision) : Bool :=
  decide (d.status = DecisionStatus.pending) &&
  (match d.expiresAt with
   | some e => decide (e < now)
   | none => false)

/-- A non-pending decision decided before the cutoff (the removal condition of
`clearCompleted`). -/
def completedBefore (cutoff : Int) (d : Decision) : Bool :=
  !decide (d.status = DecisionStatus.pending) &&
  (match d.decidedAt with
   | some t => decide (t < cutoff)
   | none => false)

/-- C7: `clearExpired` removes exactly the pending decisions whose expiresAt is
before now and returns how many; `clearCompleted` with its default argument
removes exactly the non-pending decisions decided more than 7 days before now
and returns how many. -/
theorem maintenance_sweeps_remove_exactly (s : DecisionQueueState) (now : Int) :
    (clearExpired s now).1.decisions = s.decisions.filter (fun d => !expiredPending now d) ∧
    (clearExpired s now).2 = (s.decisions.filter (expiredPending now)).length ∧
    (clearCompleted s now).1.decisions =
      s.decisions.filter (fun d => !completedBefore (now - 7 * msPerDay) d) ∧
    (clearCompleted s now).2 =
      (s.decisions.filter (completedBefore (now - 7 * msPerDay))).length := by
  have hkeep : ∀ d : Decision,
      (if d.status ≠ DecisionStatus.pending then true
       else match d.expiresAt with
         | some e => !decide (e < now)
         | none => true) = !expiredPending now d := by
    intro d
    by_cases h : d.status = DecisionStatus.pending <;>
      cases hde : d.expiresAt <;> simp [expiredPending, h, hde]
  have hkeep2 : ∀ d : Decision,
      (if d.status = DecisionStatus.pending then true
       else match d.decidedAt with
         | some t => !decide (t < now - 7 * msPerDay)
         | none => true) = !completedBefore (now - 7 * msPerDay) d := by
    intro d
    by_cases h : d.status = DecisionStatus.pending <;>
      cases hdd : d.decidedAt <;> simp [completedBefore, h, hdd]
  refine ⟨?_, ?_, ?_, ?_⟩
  · simp only [clearExpired]
    exact List.filter_congr (fun d _ => hkeep d)
  · simp only [clearExpired]
    rw [List.filter_congr (fun d _ => hkeep d)]
    have := length_sub_length_filter s.decisions (fun d => !expiredPending now d)
    simpa using this
  · simp only [clearCompleted]
    exact List.filter_congr (fun d _ => hkeep2 d)
  · simp only [clearCompleted]
    rw [List.filter_congr (fun d _ => hkeep2 d)]
    have := length_sub_length_filter s.decisions (fun d => !completedBefore (now - 7 * msPerDay) d)
    simpa using this

/-! ## Claim about the processed-decision cap -/

/-- C10: `addProcessedDecision` always persists at most 500 keys; the stored
list is a suffix of the inserted list, i.e. eviction removes only the oldest
entries, and the length is exactly `min inserted 500`. -/
theorem addProcessedDecision_cap (stored : List String) (key : String) :
    (addProcessedDecision stored key).length ≤ 500 ∧
    (addProcessedDecision stored key) <:+ processedInsert stored key ∧
    (addProcessedDecision stored key).length = min (processedInsert stored key).length 500 := by
  refine ⟨?_, ?_, ?_⟩
  · simp only [addProcessedDecision, List.length_drop]
    omega
  · exact List.drop_suffix _ _
  · simp only [addProcessedDecision, List.length_drop]
    omega

/-! ## Claim about getPendingDecisions -/

theorem isActivePending_iff (now : Int) (d : Decision) :
    isActivePending now d = true ↔
      (d.status = DecisionStatus.pending ∧
       (∀ e, d.expiresAt = some e → ¬ e < now) ∧
       (∀ u, d.snoozeUntil = some u → ¬ u > now)) := by
  unfold isActivePending
  cases hde : d.expiresAt <;> cases hds : d.snoozeUntil <;>
    (simp [hde, hds]; try tauto)

/-- C3: `getPendingDecisions` returns a permutation of exactly the stored
decisions that are pending, not expired and not snoozed at `now`, sorted by
the priority-then-recency order (critical first; within a priority, newer
creation timestamps first). -/
theorem getPendingDecisions_spec (s : DecisionQueueState) (now : Int) :
    (getPendingDecisions s now).Perm (s.decisions.filter (isActivePending now)) ∧
    List.Sorted decisionLE (getPendingDecisions s now) ∧
    (∀ d, d ∈ getPendingDecisions s now ↔
      (d ∈ s.decisions ∧ d.status = DecisionStatus.pending ∧
       (∀ e, d.expiresAt = some e → ¬ e < now) ∧
       (∀ u, d.snoozeUntil = some u → ¬ u > now))) := by
  refine ⟨List.perm_insertionSort _ _, List.sorted_insertionSort _ _, fun d => ?_⟩
  rw [getPendingDecisions, (List.perm_insertionSort decisionLE _).mem_iff,
    List.mem_filter, isActivePending_iff]

/-! ## Claims about decision dedupe -/

def cDecision1 : Decision :=
  { id := "d-1", type := "follow_up_stale", category := "follow_up"
    priority := DecisionPriority.high, status := DecisionStatus.pending
    dealId := some "deal-1", contactId := some "contact-1", activityId := none
    createdAt := 0, expiresAt := none, snoozeUntil := none, decidedAt := none
    suggestedAction := { type := "create_activity", payload := [] } }

def cDecision2 : Decision :=
  { cDecision1 with id := "d-2", contactId := some "contact-2" }

/-- C2 counterexample: two decisions with identical type and identical dealId
but different contactIds are BOTH inserted — the pending-similarity check also
compares contactId, and nothing marks the key processed on insert. -/
theorem addDecision_dedupe_counterexample :
    cDecision1.type = cDecision2.type ∧
    cDecision1.dealId = cDecision2.dealId ∧
    (addDecision (addDecision emptyStorage cDecision1) cDecision2).queue.decisions =
      [cDecision1, cDecision2] ∧
    (addDecisions emptyStorage [cDecision1, cDecision2]).2 = 2 := by
  decide

/-- C2 amended: two decisions with identical type, dealId AND contactId, the
first of which is pending, dedupe to a single insertion (both via two
`addDecision` calls and via one `addDecisions` call), starting from empty
storage. -/
theorem addDecision_dedupes_similar (d1 d2 : Decision)
    (hpend : d1.status = DecisionStatus.pending)
    (ht : d2.type = d1.type) (hd : d2.dealId = d1.dealId)
    (hc : d2.contactId = d1.contactId) :
    (addDecision (addDecision emptyStorage d1) d2).queue.decisions = [d1] ∧
    (addDecisions emptyStorage [d1, d2]).1.queue.decisions = [d1] ∧
    (addDecisions emptyStorage [d1, d2]).2 = 1 := by
  have hsim : similarPending d2 d1 = true := by
    simp [similarPending, hpend, ht, hd, hc]
  refine ⟨?_, ?_, ?_⟩
  · simp [addDecision, emptyStorage, List.any_cons, hsim]
  · simp [addDecisions, addDecisionsLoop, emptyStorage, List.any_cons, hsim]
  · simp [addDecisions, addDecisionsLoop, emptyStorage, List.any_cons, hsim]

theorem addDecision_dedupes_similar_witness :
    cDecision1.status = DecisionStatus.pending ∧
    (addDecision (addDecision emptyStorage cDecision1) cDecision1).queue.decisions =
      [cDecision1] :=
  ⟨by decide,
   (addDecision_dedupes_similar cDecision1 cDecision1 (by decide) rfl rfl rfl).1⟩

/-! ## Claim about onSuccess reconciliation -/

theorem countId_eq_countP (l : List Board) (i : String) :
    countId l i = l.countP (fun b => decide (b.id = i)) :=
  (List.countP_eq_length_filter _ _).symm

/-- A cache that already holds two records with the server id. -/
def cCacheDup : BoardsCache :=
  { boardsList := some [⟨"b1", "A", [], false, 0⟩, ⟨"b1", "B", [], false, 1⟩]
    boardsInvalidated := false
    dealsInvalidated := false }

/-- C5 counterexample: when the cached list already carries the server id
twice, `onSuccess` keeps both copies, so the server-created record is not
present exactly once. -/
theorem onSuccess_duplicate_counterexample :
    countId ((useCreateBoard_onSuccess cCacheDup ⟨some [], "temp-1"⟩
      ⟨"b1", "A", [], false, 0⟩).boardsList.getD []) "b1" = 2 := by
  decide

/-- C5 amended: provided the cached list carries the server id at most once
and the server id differs from the temp id, `onSuccess` leaves no record with
the temp id and exactly one record with the server id (in particular a record
already delivered by realtime is not inserted a second time). -/
theorem onSuccess_reconciles_once (cache : BoardsCache) (ctx : CreateCtx) (data : Board)
    (h1 : countId (cache.boardsList.getD []) data.id ≤ 1)
    (h2 : data.id ≠ ctx.tempId) :
    countId ((useCreateBoard_onSuccess cache ctx data).boardsList.getD []) ctx.tempId = 0 ∧
    countId ((useCreateBoard_onSuccess cache ctx data).boardsList.getD []) data.id = 1 := by
  rw [countId_eq_countP] at h1
  set old := cache.boardsList.getD [] with hold
  set wt := old.filter (fun b => b.id ≠ ctx.tempId) with hwt
  have hres : ∀ i, countId ((useCreateBoard_onSuccess cache ctx data).boardsList.getD []) i =
      countId (if wt.any (fun b => b.id == data.id) then wt else data :: wt) i := by
    intro i
    rfl
  have hwt_temp : wt.countP (fun b => decide (b.id = ctx.tempId)) = 0 := by
    rw [List.countP_eq_zero]
    intro b hb
    have := (List.mem_filter.mp hb).2
    simp at this ⊢
    exact this
  have hwt_le : wt.countP (fun b => decide (b.id = data.id)) ≤ 1 :=
    le_trans (List.Sublist.countP_le _ (List.filter_sublist _)) h1
  by_cases hal : wt.any (fun b => b.id == data.id) = true
  · have hpos : 0 < wt.countP (fun b => decide (b.id = data.id)) := by
      rw [List.countP_pos_iff]
      obtain ⟨b, hb, hbe⟩ := List.any_eq_true.mp hal
      exact ⟨b, hb, by simpa using hbe⟩
    constructor
    · rw [hres, if_pos hal, countId_eq_countP]
      exact hwt_temp
    · rw [hres, if_pos hal, countId_eq_countP]
      omega
  · have hz : wt.countP (fun b => decide (b.id = data.id)) = 0 := by
      rw [List.countP_eq_zero]
      intro b hb
      have := List.any_eq_false.mp (Bool.eq_false_iff.mpr hal) b hb
      simpa using this
    constructor
    · rw [hres, if_neg hal, countId_eq_countP, List.countP_cons_of_neg]
      · exact hwt_temp
      · simpa using h2
    · rw [hres, if_neg hal, countId_eq_countP, List.countP_cons_of_pos]
      · omega
      · simp

theorem onSuccess_reconciles_once_witness :
    countId ((useCreateBoard_onSuccess
      ⟨some [⟨"b1", "Srv", [], false, 0⟩, ⟨"temp-1", "Tmp", [], false, 0⟩], false, false⟩
      ⟨some [], "temp-1"⟩ ⟨"b1", "Srv", [], false, 0⟩).boardsList.getD []) "temp-1" = 0 ∧
    countId ((useCreateBoard_onSuccess
      ⟨some [⟨"b1", "Srv", [], false, 0⟩, ⟨"temp-1", "Tmp", [], false, 0⟩], false, false⟩
      ⟨some [], "temp-1"⟩ ⟨"b1", "Srv", [], false, 0⟩).boardsList.getD []) "b1" = 1 :=
  onSuccess_reconciles_once
    ⟨some [⟨"b1", "Srv", [], false, 0⟩, ⟨"temp-1", "Tmp", [], false, 0⟩], false, false⟩
    ⟨some [], "temp-1"⟩ ⟨"b1", "Srv", [], false, 0⟩ (by decide) (by decide)

/-! ## Claim about the realtime insert flush -/

theorem foldl_stage_inserts (events : List RTEvent)
    (h : ∀ e ∈ events, e = ⟨RealtimeTable.board_stages, RTEventType.INSERT⟩) (c : Nat) :
    events.foldl processEvent ⟨[], [QueryKey.boardsAll], c⟩ =
      ⟨[], [QueryKey.boardsAll], c + events.length⟩ := by
  induction events generalizing c with
  | nil => simp
  | cons e rest ih =>
    have he := h e (List.mem_cons_self _ _)
    subst he
    have hstep :
        processEvent ⟨[], [QueryKey.boardsAll], c⟩
          ⟨RealtimeTable.board_stages, RTEventType.INSERT⟩ =
          ⟨[], [QueryKey.boardsAll], c + 1⟩ := by
      simp [processEvent, addKeys, insertKey, getTableQueryKeys]
    rw [List.foldl_cons, hstep, ih (fun x hx => h x (List.mem_cons_of_mem _ hx))]
    simp only [List.length_cons]
    have : c + 1 + rest.length = c + (rest.length + 1) := by omega
    rw [this]

/-- C6: a batch of board_stages INSERT events accumulated before one microtask
flush makes the flush issue exactly one invalidation of the boards queries,
refetching (refetchType all) when the counted inserts are at most one and
invalidate-only (refetchType none) when the count is greater than one. -/
theorem board_stages_burst_flush (events : List RTEvent)
    (hne : events ≠ [])
    (h : ∀ e ∈ events, e = ⟨RealtimeTable.board_stages, RTEventType.INSERT⟩) :
    (events.foldl processEvent rtInit).boardStagesInsertCount = events.length ∧
    flushInserts (events.foldl processEvent rtInit) =
      [(QueryKey.boardsAll,
        if events.length ≤ 1 then RefetchType.all else RefetchType.none_)] := by
  obtain ⟨e, rest, rfl⟩ := List.exists_cons_of_ne_nil hne
  have he := h e (List.mem_cons_self _ _)
  subst he
  have hstep :
      processEvent rtInit ⟨RealtimeTable.board_stages, RTEventType.INSERT⟩ =
        ⟨[], [QueryKey.boardsAll], 1⟩ := by
    simp [rtInit, processEvent, addKeys, insertKey, getTableQueryKeys]
  rw [List.foldl_cons, hstep,
    foldl_stage_inserts rest (fun e he => h e (List.mem_cons_of_mem _ he)) 1]
  refine ⟨by simp; omega, ?_⟩
  have hcond : (1 + rest.length ≤ 1) = ((⟨RealtimeTable.board_stages,
      RTEventType.INSERT⟩ :: rest : List RTEvent).length ≤ 1) := by
    simp only [List.length_cons, eq_iff_iff]
    omega
  simp only [flushInserts, List.map_nil, List.map_cons, List.nil_append, hcond]

theorem board_stages_burst_flush_witness :
    (([⟨RealtimeTable.board_stages, RTEventType.INSERT⟩,
      ⟨RealtimeTable.board_stages, RTEventType.INSERT⟩] : List RTEvent).foldl
        processEvent rtInit).boardStagesInsertCount = 2 ∧
    flushInserts (([⟨RealtimeTable.board_stages, RTEventType.INSERT⟩,
      ⟨RealtimeTable.board_stages, RTEventType.INSERT⟩] : List RTEvent).foldl
        processEvent rtInit) = [(QueryKey.boardsAll, RefetchType.none_)] := by
  simpa using board_stages_burst_flush
    [⟨RealtimeTable.board_stages, RTEventType.INSERT⟩,
     ⟨RealtimeTable.board_stages, RTEventType.INSERT⟩]
    (by decide) (by decide)

/-! ## Claims about approveDecision -/

theorem lookupKey_append (k : String) (l1 l2 : List (String × String)) :
    lookupKey k (l1 ++ l2) =
      match lookupKey k l1 with
      | some v => some v
      | none => lookupKey k l2 := by
  induction l1 with
  | nil => simp [lookupKey]
  | cons kv rest ih =>
    obtain ⟨k', v⟩ := kv
    by_cases h : k' = k
    · simp [lookupKey, h]
    · simp [lookupKey, h, ih]

theorem lookupKey_map_merge (k : String) (base ov : List (String × String)) :
    lookupKey k (base.map (fun kv =>
      match lookupKey kv.1 ov with
      | some v => (kv.1, v)
      | none => kv)) =
      match lookupKey k base with
      | none => none
      | some v =>
        match lookupKey k ov with
        | some w => some w
        | none => some v := by
  induction base with
  | nil => simp [lookupKey]
  | cons kv rest ih =>
    obtain ⟨k', v⟩ := kv
    by_cases h : k' = k
    · subst h
      cases hov : lookupKey k' ov <;> simp [lookupKey, hov]
    · cases hov : lookupKey k' ov <;> simp [lookupKey, h, hov, ih]

theorem lookupKey_filter_keys (k : String) (base ov : List (String × String))
    (h : lookupKey k base = none) :
    lookupKey k (ov.filter (fun kv => lookupKey kv.1 base = none)) = lookupKey k ov := by
  induction ov with
  | nil => rfl
  | cons kv rest ih =>
    obtain ⟨k', v⟩ := kv
    by_cases hk : k' = k
    · subst hk
      simp [List.filter, lookupKey, h, ih]
    · by_cases hb : lookupKey k' base = none <;>
        simp [List.filter, lookupKey, hk, hb, ih]

/-- The spread merge looks up to the override first: override fields win. -/
theorem spreadMerge_lookup (base ov : List (String × String)) (k : String) :
    lookupKey k (spreadMerge base ov) =
      match lookupKey k ov with
      | some v => some v
      | none => lookupKey k base := by
  unfold spreadMerge
  rw [lookupKey_append, lookupKey_map_merge]
  cases hb : lookupKey k base with
  | some v => cases hov : lookupKey k ov <;> simp [hov]
  | none =>
    rw [lookupKey_filter_keys k base ov hb]
    cases hov : lookupKey k ov <;> simp [hov, hb]

theorem find?_replaceFirst (l : List Decision) (id : String) (d : Decision)
    (f : Decision → Decision) (hf : ∀ e, (f e).id = e.id)
    (h : l.find? (fun e => e.id == id) = some d) :
    (replaceFirst id f l).find? (fun e => e.id == id) = some (f d) := by
  induction l with
  | nil => simp at h
  | cons x rest ih =>
    by_cases hx : x.id = id
    · rw [List.find?_cons_of_pos _ (by simpa using hx)] at h
      obtain rfl : x = d := by simpa using h
      rw [replaceFirst, if_pos hx]
      exact List.find?_cons_of_pos _ (by simp [hf, hx])
    · rw [List.find?_cons_of_neg _ (by simpa using hx)] at h
      rw [replaceFirst, if_neg hx]
      rw [List.find?_cons_of_neg _ (by simpa using hx)]
      exact ih h

set_option maxRecDepth 4000 in
/-- C4: approving a pending decision executes its suggested action with the
payload spread-merged with the override (override fields winning on lookup),
marks the decision approved with decidedAt set, and records its dedupe key in
the processed set. -/
theorem approveDecision_success (s : Storage) (now : Int) (id : String)
    (ov : List (String × String)) (d : Decision)
    (hfind : s.queue.decisions.find? (fun e => e.id == id) = some d)
    (hpend : d.status = DecisionStatus.pending)
    (hlen : s.processedKeys.length ≤ 500) :
    (approveDecision s now id (some ov)).2 =
      { success := true, error := none,
        result := some (d.suggestedAction.type, spreadMerge d.suggestedAction.payload ov) } ∧
    (∀ k, lookupKey k (spreadMerge d.suggestedAction.payload ov) =
      match lookupKey k ov with
      | some v => some v
      | none => lookupKey k d.suggestedAction.payload) ∧
    ((approveDecision s now id (some ov)).1.queue.decisions.find? (fun e => e.id == id) =
      some { d with status := DecisionStatus.approved, decidedAt := some now }) ∧
    dedupeKey d ∈ (approveDecision s now id (some ov)).1.processedKeys := by
  have happ : approveDecision s now id (some ov) =
      (updateDecisionStatus s now id DecisionStatus.approved,
       { success := true, error := none,
         result := some (d.suggestedAction.type,
           spreadMerge d.suggestedAction.payload ov) }) := by
    unfold approveDecision
    rw [hfind]
    simp [hpend, executeAction]
  have hupd : updateDecisionStatus s now id DecisionStatus.approved =
      { queue := { s.queue with decisions := replaceFirst id (fun e => { e with status := DecisionStatus.approved, decidedAt := some now }) s.queue.decisions }
        processedKeys := addProcessedDecision s.processedKeys (dedupeKey d) } := by
    unfold updateDecisionStatus
    rw [hfind]
    simp
  refine ⟨by rw [happ], fun k => spreadMerge_lookup _ _ k, ?_, ?_⟩
  · rw [happ, hupd]
    exact find?_replaceFirst s.queue.decisions id d _ (fun e => rfl) hfind
  · rw [happ, hupd]
    show dedupeKey d ∈ addProcessedDecision s.processedKeys (dedupeKey d)
    exact mem_addProcessedDecision s.processedKeys (dedupeKey d) hlen

def cDecisionP : Decision :=
  { id := "dec-7", type := "deal_stagnant", category := "risk"
    priority := DecisionPriority.critical, status := DecisionStatus.pending
    dealId := some "deal-9", contactId := none, activityId := none
    createdAt := 100, expiresAt := none, snoozeUntil := none, decidedAt := none
    suggestedAction :=
      { type := "create_activity", payload := [("note", "old"), ("title", "call")] } }

def cStore : Storage :=
  { queue := { decisions := [cDecisionP] }, processedKeys := [] }

theorem approveDecision_success_witness :
    (approveDecision cStore 200 "dec-7" (some [("note", "new")])).2 =
      { success := true, error := none,
        result := some (cDecisionP.suggestedAction.type,
          spreadMerge cDecisionP.suggestedAction.payload [("note", "new")]) } ∧
    (∀ k, lookupKey k (spreadMerge cDecisionP.suggestedAction.payload [("note", "new")]) =
      match lookupKey k [("note", "new")] with
      | some v => some v
      | none => lookupKey k cDecisionP.suggestedAction.payload) ∧
    ((approveDecision cStore 200 "dec-7" (some [("note", "new")])).1.queue.decisions.find?
        (fun e => e.id == "dec-7") =
      some { cDecisionP with status := DecisionStatus.approved, decidedAt := some 200 }) ∧
    dedupeKey cDecisionP ∈ (approveDecision cStore 200 "dec-7" (some [("note", "new")])).1.processedKeys :=
  approveDecision_success cStore 200 "dec-7" [("note", "new")] cDecisionP
    (by decide) rfl (by decide)

/-- C9: approving a missing id, or a decision that is not pending, fails with
an error message, executes nothing and leaves the storage unchanged. -/
theorem approveDecision_failure_noop (s : Storage) (now : Int) (id : String)
    (ov : Option (List (String × String)))
    (h : ∀ d, s.queue.decisions.find? (fun e => e.id == id) = some d →
      d.status ≠ DecisionStatus.pending) :
    (approveDecision s now id ov).1 = s ∧
    (approveDecision s now id ov).2.success = false ∧
    (approveDecision s now id ov).2.error.isSome = true ∧
    (approveDecision s now id ov).2.result = none := by
  cases hf : s.queue.decisions.find? (fun e => e.id == id) with
  | none =>
    unfold approveDecision
    rw [hf]
    simp
  | some d =>
    have hd := h d hf
    unfold approveDecision
    rw [hf]
    simp [hd]

theorem approveDecision_failure_noop_witness :
    (approveDecision emptyStorage 0 "missing" none).1 = emptyStorage ∧
    (approveDecision emptyStorage 0 "missing" none).2.success = false ∧
    (approveDecision emptyStorage 0 "missing" none).2.error.isSome = true ∧
    (approveDecision emptyStorage 0 "missing" none).2.result = none :=
  approveDecision_failure_noop emptyStorage 0 "missing" none
    (fun d hd => by simp [emptyStorage] at hd)

end NossoCRM
